import Mathlib

/-!
Verification of the stepmom_tv coordination system.

The coordinator (`src/video_player_brain.py`, class `VideoControlSystem`) is
embedded as a pure state type `BrainState` with one Lean function per Python
method; MQTT publishing is modelled by an oracle `Nat → Bool` giving the
success of each publish attempt, and each performed attempt is recorded in a
list of `Publish` values.  The node (`src/video_player_client.py`, class
`VideoClient`) is embedded as a state machine `ClientState` with the media
engines abstracted to "is playing" flags; whether an engine honours a stop
request within the code's bounded wait is an explicit parameter.  Times are
rationals (Python floats carry real-valued epoch seconds).
-/

namespace StepmomTV

/-- Association-list lookup, first binding wins (Python dict access). -/
def alookup {α : Type} (k : String) : List (String × α) → Option α
  | [] => none
  | (k', v) :: rest => if k' = k then some v else alookup k rest

/-- Association-list insert-or-replace (Python `d[k] = v`). -/
def upsert {α : Type} (k : String) (v : α) : List (String × α) → List (String × α)
  | [] => [(k, v)]
  | (k', v') :: rest => if k' = k then (k, v) :: rest else (k', v') :: upsert k v rest

/-- The keys of an association list are pairwise distinct (true of every
Python dict; preserved by all operations below). -/
def keysNodup {α : Type} (l : List (String × α)) : Prop :=
  (l.map Prod.fst).Nodup

-- Configuration constants from the top of `video_player_brain.py`.

/-- `HEARTBEAT_TIMEOUT = 10` seconds. -/
def HEARTBEAT_TIMEOUT : ℚ := 10

/-- `ACK_TIMEOUT = 5` seconds. -/
def ACK_TIMEOUT : ℚ := 5

/-- `MAX_RETRY_ATTEMPTS = 3`. -/
def MAX_RETRY_ATTEMPTS : Nat := 3

/-- One entry of a command's `acks` dict: `{"status": status, "timestamp": time.time()}`. -/
structure AckRecord where
  status : String
  timestamp : ℚ
deriving Repr, DecidableEq

/-- One entry of `pending_commands`, as built in `send_video_command`. -/
structure Command where
  video_index : Int
  start_time : ℚ
  timestamp : ℚ
  expected_clients : Nat
  acks : List (String × AckRecord)
deriving Repr, DecidableEq

/-- The coordinator's mutable state (`VideoControlSystem`): the media list,
the membership table `clients_last_seen` and the command table
`pending_commands`. -/
structure BrainState where
  video_files : List String
  clients_last_seen : List (String × ℚ)
  pending_commands : List (String × Command)
deriving Repr, DecidableEq

/-- `handle_heartbeat`: upsert `clients_last_seen[client_id] = time.time()`. -/
def handle_heartbeat (client_id : String) (now : ℚ) (s : BrainState) : BrainState :=
  { s with clients_last_seen := upsert client_id now s.clients_last_seen }

/-- Python's `str.split(":")` on a character list: split at every colon,
keeping empty segments (`"".split(":") == [""]`, `":".split(":") == ["", ""]`). -/
def split_colon : List Char → List (List Char)
  | [] => [[]]
  | c :: rest =>
    if c = ':' then [] :: split_colon rest
    else
      match split_colon rest with
      | h :: t => (c :: h) :: t
      | [] => [[c]]

/-- The parse step of `handle_acknowledgment`: split the payload on `":"`
and take the first three parts `(client_id, command_id, status)`; `none`
when there are fewer than three. -/
def parse_ack (payload : String) : Option (String × String × String) :=
  match (split_colon payload.data).map (fun cs => String.mk cs) with
  | client_id :: command_id :: status :: _ => some (client_id, command_id, status)
  | _ => none

/-- `handle_acknowledgment`: on a parsable payload whose command id is known,
upsert `pending_commands[command_id]["acks"][client_id] = {status, now}`;
otherwise leave the state unchanged. -/
def handle_acknowledgment (payload : String) (now : ℚ) (s : BrainState) : BrainState :=
  match parse_ack payload with
  | some (client_id, command_id, status) =>
    match alookup command_id s.pending_commands with
    | some cmd =>
      let cmd' := { cmd with acks := upsert client_id ⟨status, now⟩ cmd.acks }
      { s with pending_commands := upsert command_id cmd' s.pending_commands }
    | none => s
  | none => s

/-- The dict returned by `get_command_status`. -/
structure CommandStatus where
  completed : Bool
  success_count : Nat
  error_count : Nat
  total_responses : Nat
  expected_clients : Nat
  time_elapsed : ℚ
deriving Repr, DecidableEq

/-- The status record `get_command_status` builds for a stored command: the
aggregated counts, elapsed time and the quorum-or-timeout completion flag. -/
def statusOf (cmd : Command) (now : ℚ) : CommandStatus :=
  { completed := decide (cmd.acks.length ≥ cmd.expected_clients)
      || decide (now - cmd.timestamp > ACK_TIMEOUT)
  , success_count := (cmd.acks.filter (fun a => a.2.status = "success")).length
  , error_count := (cmd.acks.filter (fun a => a.2.status = "error")).length
  , total_responses := cmd.acks.length
  , expected_clients := cmd.expected_clients
  , time_elapsed := now - cmd.timestamp }

/-- `get_command_status`: `None` for an unknown id, else the aggregated
status record. -/
def get_command_status (command_id : String) (now : ℚ) (s : BrainState) :
    Option CommandStatus :=
  match alookup command_id s.pending_commands with
  | none => none
  | some cmd => some (statusOf cmd now)

/-- A command with one ack entry upserted, as `handle_acknowledgment` builds
it. -/
def with_ack (client status : String) (t : ℚ) (cmd : Command) : Command :=
  { cmd with acks := upsert client ⟨status, t⟩ cmd.acks }

/-- The HTTP route `/api/command/status/<command_id>`: 404 for `None`. -/
inductive StatusResult
  | notFound
  | ok (st : CommandStatus)
deriving Repr, DecidableEq

/-- `api_command_status`: wrap `get_command_status`, `None` becoming 404. -/
def api_command_status (command_id : String) (now : ℚ) (s : BrainState) : StatusResult :=
  match get_command_status command_id now s with
  | none => StatusResult.notFound
  | some st => StatusResult.ok st

/-- `/api/clients/count`: `len(self.clients_last_seen)`, with no staleness
filter. -/
def api_clients_count (s : BrainState) : Nat :=
  s.clients_last_seen.length

/-- One pass of the `cleanup_inactive_clients` loop body: drop every client
with `now - last_seen > HEARTBEAT_TIMEOUT`. -/
def cleanup_inactive_clients_step (now : ℚ) (s : BrainState) : BrainState :=
  { s with clients_last_seen :=
      s.clients_last_seen.filter (fun p => decide (now - p.2 ≤ HEARTBEAT_TIMEOUT)) }

/-- One pass of the `cleanup_old_commands` loop body: drop every command with
`now - timestamp > ACK_TIMEOUT * 2`. -/
def cleanup_old_commands_step (now : ℚ) (s : BrainState) : BrainState :=
  { s with pending_commands :=
      s.pending_commands.filter (fun p => decide (now - p.2.timestamp ≤ ACK_TIMEOUT * 2)) }

/-- `publish_with_retry`, fuelled by the remaining attempt budget: given the
transport oracle `o` (success of attempt number `attempt`), return whether
some attempt succeeded together with the number of publish calls actually
made (the loop returns at the first success). -/
def publish_with_retry_aux (o : Nat → Bool) (attempt : Nat) : Nat → Bool × Nat
  | 0 => (false, 0)
  | n + 1 =>
    if o attempt then (true, 1)
    else
      let r := publish_with_retry_aux o (attempt + 1) n
      (r.1, r.2 + 1)

/-- `publish_with_retry` with the full `MAX_RETRY_ATTEMPTS` budget. -/
def publish_with_retry (o : Nat → Bool) : Bool × Nat :=
  publish_with_retry_aux o 0 MAX_RETRY_ATTEMPTS

/-- One MQTT publish on the command topic: the payload is either the command
message triple `(video_index, start_time, command_id)` or the empty clearing
message, with the retain flag. -/
structure Publish where
  payload : Option (Int × ℚ × String)
  retain : Bool
deriving Repr, DecidableEq

/-- The command record `send_video_command` stores: the index, the scheduled
start `now + delay`, the issue time, the snapshot
`expected_clients = len(clients_last_seen)` and an empty ack dict. -/
def new_command (video_index : Int) (delay now : ℚ) (s : BrainState) : Command :=
  { video_index := video_index
  , start_time := now + delay
  , timestamp := now
  , expected_clients := s.clients_last_seen.length
  , acks := [] }

/-- `send_video_command`: reject an out-of-range index (no record, no
publish); otherwise store the command record, publish the message with
retry, and on success publish once more with the retain flag and schedule a
retained clear; returns the command id iff the live publish reported
success.  `liveO`, `retainO`, `clearO` are the transport oracles of the
three `publish_with_retry` calls. -/
def send_video_command (video_index : Int) (delay now : ℚ) (command_id : String)
    (liveO retainO clearO : Nat → Bool) (s : BrainState) :
    BrainState × Option String × List Publish :=
  if 0 ≤ video_index ∧ video_index < (s.video_files.length : Int) then
    let cmd := new_command video_index delay now s
    let s' := { s with pending_commands := upsert command_id cmd s.pending_commands }
    let msg : Int × ℚ × String := (video_index, now + delay, command_id)
    let live := publish_with_retry liveO
    if live.1 then
      let ret := publish_with_retry retainO
      let clr := publish_with_retry clearO
      (s', some command_id,
        List.replicate live.2 ⟨some msg, false⟩
          ++ List.replicate ret.2 ⟨some msg, true⟩
          ++ List.replicate clr.2 ⟨none, true⟩)
    else
      (s', none, List.replicate live.2 ⟨some msg, false⟩)
  else
    (s, none, [])

/-- The number of live (non-retained) publishes of the command message among
the recorded publish attempts. -/
def livePublishCount (msg : Int × ℚ × String) (pubs : List Publish) : Nat :=
  (pubs.filter (fun p => decide (p.payload = some msg) && !p.retain)).length

/-- The number of retained publishes of the command message among the
recorded publish attempts. -/
def retainedPublishCount (msg : Int × ℚ × String) (pubs : List Publish) : Nat :=
  (pubs.filter (fun p => decide (p.payload = some msg) && p.retain)).length

/-- Outcome of the `/api/play` route. -/
inductive ApiPlayResult
  | invalidIndex
  | noReceivers
  | ok (command_id : String)
  | publishFailed
deriving Repr, DecidableEq

/-- `/api/play`: reject a missing or out-of-range index, then reject when
`clients_last_seen` is empty (the emptiness of the raw dict, with no
heartbeat-age filter), else dispatch via `send_video_command` with the
default 4-second delay. -/
def api_play (video_index : Option Int) (now : ℚ) (command_id : String)
    (liveO retainO clearO : Nat → Bool) (s : BrainState) :
    ApiPlayResult × BrainState × List Publish :=
  match video_index with
  | none => (ApiPlayResult.invalidIndex, s, [])
  | some idx =>
    if 0 ≤ idx ∧ idx < (s.video_files.length : Int) then
      if s.clients_last_seen.isEmpty then
        (ApiPlayResult.noReceivers, s, [])
      else
        match send_video_command idx 4 now command_id liveO retainO clearO s with
        | (s', some cid, pubs) => (ApiPlayResult.ok cid, s', pubs)
        | (s', none, pubs) => (ApiPlayResult.publishFailed, s', pubs)
    else
      (ApiPlayResult.invalidIndex, s, [])

/-- A state-mutating coordinator event: a heartbeat, an ack, a dispatch
through `/api/play`, or one pass of either reaper. -/
inductive BrainOp
  | heartbeat (client_id : String) (now : ℚ)
  | ack (payload : String) (now : ℚ)
  | dispatch (video_index : Option Int) (now : ℚ) (command_id : String)
      (liveO retainO clearO : Nat → Bool)
  | sweepClients (now : ℚ)
  | sweepCommands (now : ℚ)

/-- Apply one coordinator event to the state. -/
def applyOp (s : BrainState) : BrainOp → BrainState
  | BrainOp.heartbeat c n => handle_heartbeat c n s
  | BrainOp.ack p n => handle_acknowledgment p n s
  | BrainOp.dispatch vi n cid l r c => (api_play vi n cid l r c s).2.1
  | BrainOp.sweepClients n => cleanup_inactive_clients_step n s
  | BrainOp.sweepCommands n => cleanup_old_commands_step n s

/-- The command id freshly inserted by a dispatch event, if any. -/
def dispatchId : BrainOp → Option String
  | BrainOp.dispatch _ _ cid _ _ _ => some cid
  | _ => none

/-! ## Node-side playback controller (`src/video_player_client.py`) -/

/-- Which of the two VLC handles `active_player` currently points to. -/
inductive ActiveHandle
  | loopP
  | manualP
deriving Repr, DecidableEq

/-- The node state relevant to mode arbitration (`VideoClient`): the mode
flag, the loop pause event, the transition timestamp, the active-player
pointer, the two engines' "is playing" reports, and the media currently
loaded on the manual engine. -/
structure ClientState where
  manual_mode : Bool
  loop_pause_event : Bool
  manual_transition_time : ℚ
  active_player : ActiveHandle
  loop_playing : Bool
  manual_playing : Bool
  manual_media : Option Int
deriving Repr, DecidableEq

/-- The engine's `is_playing` report after `stop()` followed by the code's
bounded wait (up to 5 s): `false` when the engine honours the stop within
the wait (`stopOk`), otherwise the player is still reporting playing and the
code proceeds with only a warning. -/
def stop_and_wait (playing stopOk : Bool) : Bool :=
  playing && !stopOk

/-- The body of `switch_to_manual_mode`'s non-degenerate branch: set the
loop pause event and the transition time, stop the loop player (with
bounded wait) if it is the active one, then flip to manual mode with the
manual player active. -/
def manual_transition_steps (stopOk : Bool) (now : ℚ) (s : ClientState) : ClientState :=
  let s1 := { s with loop_pause_event := true, manual_transition_time := now }
  let s2 :=
    if s1.active_player = ActiveHandle.loopP then
      { s1 with loop_playing := stop_and_wait s1.loop_playing stopOk }
    else s1
  { s2 with manual_mode := true, active_player := ActiveHandle.manualP }

/-- `switch_to_manual_mode`: return `True` immediately when already in
manual mode, else perform the transition steps and return `True`. -/
def switch_to_manual_mode (stopOk : Bool) (now : ℚ) (s : ClientState) :
    Bool × ClientState :=
  if s.manual_mode then (true, s)
  else (true, manual_transition_steps stopOk now s)

/-- `switch_to_loop_mode`: no-op when already in loop mode, else stop the
manual player (bounded wait) if active, clear the mode flag and transition
time, point back at the loop player and clear the pause event. -/
def switch_to_loop_mode (stopOk : Bool) (s : ClientState) : ClientState :=
  if !s.manual_mode then s
  else
    let s1 :=
      if s.active_player = ActiveHandle.manualP then
        { s with manual_playing := stop_and_wait s.manual_playing stopOk }
      else s
    { s1 with manual_mode := false, active_player := ActiveHandle.loopP,
              manual_transition_time := 0, loop_pause_event := false }

/-- `start_playback_on_player` on the manual player: the new media is loaded
onto the handle (replacing whatever was there) and, when the engine starts
within the retries (`startOk`), the handle reports playing. -/
def start_manual_playback (startOk : Bool) (index : Int) (s : ClientState) :
    Bool × ClientState :=
  (startOk, { s with manual_media := some index, manual_playing := startOk })

/-- The synchronization wait computed in `play_video`:
`wait_seconds = start_time - time.time()` — no clock-offset term. -/
def wait_seconds (start_time now : ℚ) : ℚ :=
  start_time - now

/-- The observable outcome of one `play_video` call: the sequence of states
after each step, the acknowledgments sent (command id, status), and the
synchronization wait if that point was reached. -/
structure PlayResult where
  trace : List ClientState
  acks : List (String × String)
  waited : Option ℚ
deriving Repr, DecidableEq

/-- `play_video`: switch to manual mode, validate the index and the file,
start the manual player with retries, sleep the synchronization wait,
re-verify, ack, monitor to end of media and return to loop mode.  Engine
behaviour is parameterized: `fileExists` (the `os.path.exists` check),
`startOk` (the engine starts within the retries), `survivesWait` (the engine
still reports playing after the synchronization sleep), `stopOk` (stops
honoured within the bounded waits). -/
def play_video (index : Int) (start_time now : ℚ) (command_id : String)
    (video_count : Nat) (fileExists startOk survivesWait stopOk : Bool)
    (s0 : ClientState) : PlayResult :=
  let s1 := (switch_to_manual_mode stopOk now s0).2
  if ¬(0 ≤ index ∧ index < (video_count : Int)) then
    let s2 := switch_to_loop_mode stopOk s1
    ⟨[s1, s2], [(command_id, "error")], none⟩
  else if ¬fileExists then
    let s2 := switch_to_loop_mode stopOk s1
    ⟨[s1, s2], [(command_id, "error")], none⟩
  else
    let started := (start_manual_playback startOk index s1).1
    let s2 := (start_manual_playback startOk index s1).2
    if ¬started then
      let s3 := switch_to_loop_mode stopOk s2
      ⟨[s1, s2, s3], [(command_id, "error")], none⟩
    else
      let w := wait_seconds start_time now
      let s3 := { s2 with manual_playing := survivesWait }
      if s3.manual_playing then
        let s4 := { s3 with manual_playing := false }
        let s5 := switch_to_loop_mode stopOk s4
        ⟨[s1, s2, s3, s4, s5], [(command_id, "success")], some w⟩
      else
        let s4 := switch_to_loop_mode stopOk s3
        ⟨[s1, s2, s3, s4], [(command_id, "error")], some w⟩

/-! ## Specification-side definitions and concrete states -/

/-- The count the spec calls `activeCount()`: the number of nodes whose last
heartbeat is within `HEARTBEAT_TIMEOUT` of `now`.  Stated from the spec's
words for comparison with the code's `api_clients_count`. -/
def activeCount_spec (now : ℚ) (s : BrainState) : Nat :=
  (s.clients_last_seen.filter (fun p => decide (now - p.2 ≤ HEARTBEAT_TIMEOUT))).length

/-- The wait the spec claims the node computes:
`scheduledStartAt - offset - now` when the clock offset is valid, falling
back to `scheduledStartAt - now` when never synced.  Stated from the spec's
words for comparison with the code's `wait_seconds`. -/
def wait_claim (scheduledStartAt offset now : ℚ) (valid : Bool) : ℚ :=
  if valid then scheduledStartAt - offset - now else scheduledStartAt - now

/-- A coordinator state with one media file and one client whose last
heartbeat was at time 0. -/
def exampleState : BrainState :=
  { video_files := ["intro.mp4"]
  , clients_last_seen := [("node1", 0)]
  , pending_commands := [] }

/-- A transport oracle whose every publish attempt succeeds. -/
def alwaysOk : Nat → Bool := fun _ => true

/-- A node in loop mode with the loop engine playing. -/
def loopingState : ClientState :=
  { manual_mode := false
  , loop_pause_event := false
  , manual_transition_time := 0
  , active_player := ActiveHandle.loopP
  , loop_playing := true
  , manual_playing := false
  , manual_media := none }

/-- A node in manual mode, its manual engine playing media 0 for a command
that transitioned at time 5. -/
def manualState : ClientState :=
  { manual_mode := true
  , loop_pause_event := true
  , manual_transition_time := 5
  , active_player := ActiveHandle.manualP
  , loop_playing := false
  , manual_playing := true
  , manual_media := some 0 }

/-- A pending command issued at time 0 expecting one responder, no acks yet. -/
def witnessCmd : Command :=
  { video_index := 0
  , start_time := 1
  , timestamp := 0
  , expected_clients := 1
  , acks := [] }

/-- A coordinator state holding `witnessCmd` under id `"c1"`. -/
def witnessState : BrainState :=
  { video_files := ["intro.mp4"]
  , clients_last_seen := [("n1", 0)]
  , pending_commands := [("c1", witnessCmd)] }

/-- A heartbeat, an ack for `"c1"`, and a dispatch of a fresh command id. -/
def witnessOps : List BrainOp :=
  [BrainOp.heartbeat "n2" 3, BrainOp.ack "n1:c1:success" 3,
   BrainOp.dispatch (some 0) 5 "c2" alwaysOk alwaysOk alwaysOk]

/-- `witnessCmd` after `"n1"` acked success at time 3. -/
def witnessFinalCmd : Command :=
  { video_index := 0
  , start_time := 1
  , timestamp := 0
  , expected_clients := 1
  , acks := [("n1", ⟨"success", 3⟩)] }

/-- A pending command holding one ack whose status is neither `"success"`
nor `"error"`. -/
def weirdCmd : Command :=
  { video_index := 0
  , start_time := 0
  , timestamp := 0
  , expected_clients := 1
  , acks := [("n1", ⟨"pending", 1⟩)] }

/-- A coordinator state holding `weirdCmd` under id `"c9"`. -/
def weirdState : BrainState :=
  { video_files := []
  , clients_last_seen := []
  , pending_commands := [("c9", weirdCmd)] }

/-- A coordinator state with media but an empty membership table. -/
def emptyClientsState : BrainState :=
  { video_files := ["intro.mp4"]
  , clients_last_seen := []
  , pending_commands := [] }

/-! ## Association-list lemmas -/

theorem alookup_upsert_self {α : Type} (k : String) (v : α) (l : List (String × α)) :
    alookup k (upsert k v l) = some v := by
  induction l with
  | nil => simp [upsert, alookup]
  | cons hd tl ih =>
    obtain ⟨k', v'⟩ := hd
    by_cases h : k' = k
    · subst h; simp [upsert, alookup]
    · simp [upsert, alookup, h, ih]

theorem alookup_upsert_ne {α : Type} {k k' : String} (h : k' ≠ k) (v : α)
    (l : List (String × α)) : alookup k (upsert k' v l) = alookup k l := by
  induction l with
  | nil => simp [upsert, alookup, h]
  | cons hd tl ih =>
    obtain ⟨k₁, v₁⟩ := hd
    by_cases h1 : k₁ = k'
    · subst h1; simp [upsert, alookup, h]
    · simp [upsert, alookup, h1, ih]

theorem upsert_upsert {α : Type} (k : String) (v v' : α) (l : List (String × α)) :
    upsert k v (upsert k v' l) = upsert k v l := by
  induction l with
  | nil => simp [upsert]
  | cons hd tl ih =>
    obtain ⟨k₁, v₁⟩ := hd
    by_cases h : k₁ = k
    · subst h; simp [upsert]
    · simp [upsert, h, ih]

theorem countP_upsert_congr {α : Type} (p : String × α → Bool) (k : String) (v v' : α)
    (h : p (k, v) = p (k, v')) (l : List (String × α)) :
    List.countP p (upsert k v l) = List.countP p (upsert k v' l) := by
  induction l with
  | nil => simp [upsert, List.countP_cons, h]
  | cons hd tl ih =>
    obtain ⟨k₁, v₁⟩ := hd
    by_cases h1 : k₁ = k
    · subst h1; simp [upsert, List.countP_cons, h]
    · simp [upsert, h1, List.countP_cons, ih]

theorem length_upsert_congr {α : Type} (k : String) (v v' : α) (l : List (String × α)) :
    (upsert k v l).length = (upsert k v' l).length := by
  induction l with
  | nil => simp [upsert]
  | cons hd tl ih =>
    obtain ⟨k₁, v₁⟩ := hd
    by_cases h1 : k₁ = k
    · subst h1; simp [upsert]
    · simp [upsert, h1, ih]

theorem length_upsert_fresh {α : Type} {k : String} {l : List (String × α)}
    (h : alookup k l = none) (v : α) : (upsert k v l).length = l.length + 1 := by
  induction l with
  | nil => simp [upsert]
  | cons hd tl ih =>
    obtain ⟨k₁, v₁⟩ := hd
    by_cases h1 : k₁ = k
    · subst h1; simp [alookup] at h
    · simp [alookup, h1] at h
      simp [upsert, h1, ih h]

theorem countP_upsert_fresh {α : Type} {k : String} {l : List (String × α)}
    (h : alookup k l = none) (p : String × α → Bool) (v : α) :
    List.countP p (upsert k v l) =
      List.countP p l + (if p (k, v) then 1 else 0) := by
  induction l with
  | nil => simp [upsert, List.countP_cons]
  | cons hd tl ih =>
    obtain ⟨k₁, v₁⟩ := hd
    by_cases h1 : k₁ = k
    · subst h1; simp [alookup] at h
    · simp [alookup, h1] at h
      simp [upsert, h1, List.countP_cons, ih h]
      ring

theorem mem_keys_upsert {α : Type} (x k : String) (v : α) (l : List (String × α)) :
    x ∈ (upsert k v l).map Prod.fst ↔ x = k ∨ x ∈ l.map Prod.fst := by
  induction l with
  | nil => simp [upsert]
  | cons hd tl ih =>
    obtain ⟨k₁, v₁⟩ := hd
    by_cases h : k₁ = k
    · subst h; simp [upsert]
    · simp [upsert, h, ih]; tauto

theorem keysNodup_upsert {α : Type} (k : String) (v : α) {l : List (String × α)}
    (hn : keysNodup l) : keysNodup (upsert k v l) := by
  induction l with
  | nil => simp [keysNodup, upsert]
  | cons hd tl ih =>
    obtain ⟨k₁, v₁⟩ := hd
    rw [keysNodup, List.map_cons, List.nodup_cons] at hn
    by_cases h : k₁ = k
    · subst h
      rw [keysNodup, upsert, if_pos rfl, List.map_cons, List.nodup_cons]
      exact hn
    · rw [keysNodup, upsert, if_neg h, List.map_cons, List.nodup_cons]
      refine ⟨?_, ih hn.2⟩
      intro hmem
      rcases (mem_keys_upsert k₁ k v tl).1 hmem with h1 | h1
      · exact h h1
      · exact hn.1 h1

theorem keysNodup_filter {α : Type} (p : String × α → Bool) {l : List (String × α)}
    (hn : keysNodup l) : keysNodup (l.filter p) := by
  exact List.Nodup.sublist ((List.filter_sublist l).map Prod.fst) hn

theorem alookup_eq_none {α : Type} {k : String} {l : List (String × α)}
    (h : k ∉ l.map Prod.fst) : alookup k l = none := by
  induction l with
  | nil => simp [alookup]
  | cons hd tl ih =>
    obtain ⟨k₁, v₁⟩ := hd
    rw [List.map_cons, List.mem_cons] at h
    push_neg at h
    have h1 : k₁ ≠ k := fun e => h.1 e.symm
    simp [alookup, h1, ih h.2]

theorem alookup_filter {α : Type} {k : String} {p : String × α → Bool}
    {l : List (String × α)} (hn : keysNodup l) {v : α}
    (h : alookup k (l.filter p) = some v) : alookup k l = some v := by
  induction l with
  | nil => simp [alookup] at h
  | cons hd tl ih =>
    obtain ⟨k₁, v₁⟩ := hd
    rw [keysNodup, List.map_cons, List.nodup_cons] at hn
    by_cases hk : k₁ = k
    · subst hk
      rw [alookup, if_pos rfl]

      by_cases hp : p (k₁, v₁)
      · rw [List.filter_cons_of_pos hp, alookup, if_pos rfl] at h
        exact h
      · rw [List.filter_cons_of_neg hp] at h
        have : alookup k₁ (tl.filter p) = none := by
          refine alookup_eq_none ?_
          intro hmem
          rcases List.mem_map.1 hmem with ⟨q, hq, hfst⟩
          have hq' : q.1 ∈ tl.map Prod.fst :=
            List.mem_map_of_mem Prod.fst (List.mem_of_mem_filter hq)
          rw [hfst] at hq'
          exact hn.1 hq'
        rw [this] at h
        exact absurd h (by simp)
    · rw [alookup, if_neg hk]
      by_cases hp : p (k₁, v₁)
      · rw [List.filter_cons_of_pos hp, alookup, if_neg hk] at h
        exact ih hn.2 h
      · rw [List.filter_cons_of_neg hp] at h
        exact ih hn.2 h

/-! ## `publish_with_retry` lemmas -/

theorem pwr_success_iff (o : Nat → Bool) :
    (publish_with_retry o).1 = true ↔ ∃ i, i < 3 ∧ o i = true := by
  cases h0 : o 0 <;> cases h1 : o 1 <;> cases h2 : o 2 <;>
    simp [publish_with_retry, publish_with_retry_aux, MAX_RETRY_ATTEMPTS, h0, h1, h2]
  all_goals
    first
    | exact ⟨0, by omega, h0⟩
    | exact ⟨1, by omega, h1⟩
    | exact ⟨2, by omega, h2⟩
    | · intro i hi
        interval_cases i <;> simp [h0, h1, h2]

theorem pwr_count_bounds (o : Nat → Bool) :
    1 ≤ (publish_with_retry o).2 ∧ (publish_with_retry o).2 ≤ 3 := by
  cases h0 : o 0 <;> cases h1 : o 1 <;> cases h2 : o 2 <;>
    simp [publish_with_retry, publish_with_retry_aux, MAX_RETRY_ATTEMPTS, h0, h1, h2]

theorem pwr_stops_at_first_success (o : Nat → Bool) :
    ∀ i, i + 1 < (publish_with_retry o).2 → o i = false := by
  intro i hi
  cases h0 : o 0 with
  | true =>
    have hc : (publish_with_retry o).2 = 1 := by
      simp [publish_with_retry, publish_with_retry_aux, MAX_RETRY_ATTEMPTS, h0]
    omega
  | false =>
    cases h1 : o 1 with
    | true =>
      have hc : (publish_with_retry o).2 = 2 := by
        simp [publish_with_retry, publish_with_retry_aux, MAX_RETRY_ATTEMPTS, h0, h1]
      have hz : i = 0 := by omega
      subst hz; exact h0
    | false =>
      have hc : (publish_with_retry o).2 ≤ 3 := (pwr_count_bounds o).2
      have hz : i = 0 ∨ i = 1 := by omega
      rcases hz with hz | hz <;> subst hz
      · exact h0
      · exact h1


/-! ## Unfolding lemmas for the acknowledgment path -/

theorem handle_ack_unparsable {payload : String} (hp : parse_ack payload = none)
    (now : ℚ) (s : BrainState) : handle_acknowledgment payload now s = s := by
  simp [handle_acknowledgment, hp]

theorem handle_ack_unknown {payload client cid st : String}
    (hp : parse_ack payload = some (client, cid, st)) {s : BrainState}
    (hc : alookup cid s.pending_commands = none) (now : ℚ) :
    handle_acknowledgment payload now s = s := by
  simp [handle_acknowledgment, hp, hc]

theorem handle_ack_known {payload client cid st : String}
    (hp : parse_ack payload = some (client, cid, st)) {s : BrainState} {cmd : Command}
    (hc : alookup cid s.pending_commands = some cmd) (now : ℚ) :
    handle_acknowledgment payload now s =
      { s with pending_commands :=
          upsert cid (with_ack client st now cmd) s.pending_commands } := by
  simp [handle_acknowledgment, hp, hc, with_ack]

theorem get_command_status_none {cid : String} {s : BrainState}
    (hc : alookup cid s.pending_commands = none) (now : ℚ) :
    get_command_status cid now s = none := by
  simp [get_command_status, hc]

theorem get_command_status_some {cid : String} {s : BrainState} {cmd : Command}
    (hc : alookup cid s.pending_commands = some cmd) (now : ℚ) :
    get_command_status cid now s = some (statusOf cmd now) := by
  simp [get_command_status, hc]

theorem with_ack_with_ack (client st : String) (t t' : ℚ) (cmd : Command) :
    with_ack client st t (with_ack client st t' cmd) = with_ack client st t cmd := by
  simp [with_ack, upsert_upsert]

/-- The status record does not depend on the receipt timestamp stored inside
an upserted ack entry. -/
theorem statusOf_with_ack_congr (client st : String) (t t' now : ℚ) (cmd : Command) :
    statusOf (with_ack client st t cmd) now = statusOf (with_ack client st t' cmd) now := by
  have e1 : (upsert client (⟨st, t⟩ : AckRecord) cmd.acks).length =
      (upsert client (⟨st, t'⟩ : AckRecord) cmd.acks).length :=
    length_upsert_congr ..
  have e2 : ((upsert client (⟨st, t⟩ : AckRecord) cmd.acks).filter
        (fun a => a.2.status = "success")).length =
      ((upsert client (⟨st, t'⟩ : AckRecord) cmd.acks).filter
        (fun a => a.2.status = "success")).length := by
    rw [← List.countP_eq_length_filter, ← List.countP_eq_length_filter]
    exact countP_upsert_congr (fun a => decide (a.2.status = "success"))
      client ⟨st, t⟩ ⟨st, t'⟩ rfl cmd.acks
  have e3 : ((upsert client (⟨st, t⟩ : AckRecord) cmd.acks).filter
        (fun a => a.2.status = "error")).length =
      ((upsert client (⟨st, t'⟩ : AckRecord) cmd.acks).filter
        (fun a => a.2.status = "error")).length := by
    rw [← List.countP_eq_length_filter, ← List.countP_eq_length_filter]
    exact countP_upsert_congr (fun a => decide (a.2.status = "error"))
      client ⟨st, t⟩ ⟨st, t'⟩ rfl cmd.acks
  rw [statusOf, statusOf, CommandStatus.mk.injEq]
  exact ⟨by rw [with_ack, with_ack]; dsimp only; rw [e1],
    by rw [with_ack, with_ack]; dsimp only; rw [e2],
    by rw [with_ack, with_ack]; dsimp only; rw [e3],
    by rw [with_ack, with_ack]; dsimp only; rw [e1], rfl, rfl⟩

/-- Counting with two mutually exclusive predicates: the two counts sum to at
most the list length, strictly less exactly when some element satisfies
neither. -/
theorem countP_partition_le {α : Type} (p q : α → Bool) (l : List α)
    (hpq : ∀ x ∈ l, ¬(p x = true ∧ q x = true)) :
    l.countP p + l.countP q ≤ l.length ∧
    (l.countP p + l.countP q < l.length ↔ ∃ x ∈ l, p x = false ∧ q x = false) := by
  induction l with
  | nil => simp
  | cons hd tl ih =>
    have hhd := hpq hd (List.mem_cons_self hd tl)
    have ih' := ih fun x hx => hpq x (List.mem_cons_of_mem hd hx)
    have hle := ih'.1
    rw [List.countP_cons, List.countP_cons, List.length_cons]
    by_cases hp : p hd = true
    · have hq : q hd = false := by
        cases hqv : q hd
        · rfl
        · exact absurd ⟨hp, hqv⟩ hhd
      rw [if_pos hp, if_neg (by simp [hq])]
      refine ⟨by omega, ?_, ?_⟩
      · intro hlt
        rcases ih'.2.1 (by omega) with ⟨x, hx, hpx, hqx⟩
        exact ⟨x, List.mem_cons_of_mem hd hx, hpx, hqx⟩
      · rintro ⟨x, hx, hpx, hqx⟩
        rcases List.mem_cons.1 hx with rfl | hx
        · rw [hp] at hpx
          exact absurd hpx (by simp)
        · have := ih'.2.2 ⟨x, hx, hpx, hqx⟩
          omega
    · have hp' : p hd = false := by
        cases hpv : p hd
        · rfl
        · exact absurd hpv hp
      rw [if_neg hp]
      by_cases hq : q hd = true
      · rw [if_pos hq]
        refine ⟨by omega, ?_, ?_⟩
        · intro hlt
          rcases ih'.2.1 (by omega) with ⟨x, hx, hpx, hqx⟩
          exact ⟨x, List.mem_cons_of_mem hd hx, hpx, hqx⟩
        · rintro ⟨x, hx, hpx, hqx⟩
          rcases List.mem_cons.1 hx with rfl | hx
          · rw [hq] at hqx
            exact absurd hqx (by simp)
          · have := ih'.2.2 ⟨x, hx, hpx, hqx⟩
            omega
      · have hq' : q hd = false := by
          cases hqv : q hd
          · rfl
          · exact absurd hqv hq
        rw [if_neg hq]
        refine ⟨by omega, ?_, ?_⟩
        · intro _
          exact ⟨hd, List.mem_cons_self hd tl, hp', hq'⟩
        · intro _
          omega

/-! ## Claim theorems: acknowledgment aggregation -/

/-- C1: for every stored command, a status query computes `success_count` as
the number of acks with status `"success"`, `error_count` as the number with
status `"error"`, `total_responses` as the number of ack entries,
`time_elapsed` as `now` minus the command's issue time, and reports
`completed` iff `total_responses ≥ expected_clients` or
`time_elapsed > ACK_TIMEOUT` (5 s); for a command id not in the table the
query returns not-found. -/
theorem get_command_status_spec (s : BrainState) (cid : String) (now : ℚ) :
    (alookup cid s.pending_commands = none →
        api_command_status cid now s = StatusResult.notFound) ∧
    ∀ cmd, alookup cid s.pending_commands = some cmd →
      ∃ st, api_command_status cid now s = StatusResult.ok st ∧
        st.success_count = cmd.acks.countP (fun a => a.2.status = "success") ∧
        st.error_count = cmd.acks.countP (fun a => a.2.status = "error") ∧
        st.total_responses = cmd.acks.length ∧
        st.expected_clients = cmd.expected_clients ∧
        st.time_elapsed = now - cmd.timestamp ∧
        (st.completed = true ↔
          st.total_responses ≥ st.expected_clients ∨ st.time_elapsed > ACK_TIMEOUT) := by
  constructor
  · intro h
    simp [api_command_status, get_command_status_none h]
  · intro cmd h
    refine ⟨statusOf cmd now, by simp [api_command_status, get_command_status_some h],
      ?_, ?_, rfl, rfl, rfl, ?_⟩
    · exact (List.countP_eq_length_filter _ _).symm
    · exact (List.countP_eq_length_filter _ _).symm
    · simp [statusOf]

/-- C8: ingesting the same ack payload a second time (at any later receipt
time) leaves every field of the aggregated command status equal to its value
after the first ingestion — ack entries are keyed by node id, so a duplicate
delivery overwrites rather than adds. -/
theorem ack_ingestion_idempotent (s : BrainState) (payload : String) (t1 t2 now : ℚ)
    (q : String) :
    get_command_status q now
        (handle_acknowledgment payload t2 (handle_acknowledgment payload t1 s)) =
      get_command_status q now (handle_acknowledgment payload t1 s) := by
  cases hp : parse_ack payload with
  | none => rw [handle_ack_unparsable hp, handle_ack_unparsable hp]
  | some triple =>
    obtain ⟨client, cid, st⟩ := triple
    cases hc : alookup cid s.pending_commands with
    | none =>
      rw [handle_ack_unknown hp hc, handle_ack_unknown hp hc]
    | some cmd =>
      rw [handle_ack_known hp hc]
      have hc1 : alookup cid
          (upsert cid (with_ack client st t1 cmd) s.pending_commands) =
            some (with_ack client st t1 cmd) := alookup_upsert_self ..
      have h2 := handle_ack_known hp (s :=
        { s with pending_commands :=
            upsert cid (with_ack client st t1 cmd) s.pending_commands }) hc1 t2
      rw [h2]
      by_cases hq : cid = q
      · subst hq
        rw [get_command_status_some (alookup_upsert_self ..),
          get_command_status_some (alookup_upsert_self ..),
          with_ack_with_ack]
        rw [statusOf_with_ack_congr client st t2 t1 now cmd]
      · have e1 : ∀ (x : Command) (l : List (String × Command)),
            alookup q (upsert cid x l) = alookup q l := fun x l => alookup_upsert_ne hq x l
        rw [get_command_status, get_command_status]
        dsimp only
        rw [upsert_upsert, e1, e1]

/-- C10: for every stored command the status query satisfies
`success_count + error_count ≤ total_responses`, with strict inequality
exactly when some stored ack entry carries a status other than `"success"`
and `"error"`; moreover ingesting such an ack from a node not yet in the ack
table stores it and increments `total_responses` while touching neither
count. -/
theorem ack_counts_partition (s : BrainState) (cid : String) (now : ℚ) (st : CommandStatus)
    (h : get_command_status cid now s = some st) :
    st.success_count + st.error_count ≤ st.total_responses ∧
    ((st.success_count + st.error_count < st.total_responses) ↔
      ∃ cmd, alookup cid s.pending_commands = some cmd ∧
        ∃ e ∈ cmd.acks, e.2.status ≠ "success" ∧ e.2.status ≠ "error") ∧
    (∀ payload client status (t : ℚ) cmd,
      parse_ack payload = some (client, cid, status) →
      alookup cid s.pending_commands = some cmd →
      alookup client cmd.acks = none →
      status ≠ "success" → status ≠ "error" →
      ∃ st', get_command_status cid now (handle_acknowledgment payload t s) = some st' ∧
        st'.total_responses = st.total_responses + 1 ∧
        st'.success_count = st.success_count ∧
        st'.error_count = st.error_count) := by
  cases hc : alookup cid s.pending_commands with
  | none =>
    rw [get_command_status_none hc] at h
    exact absurd h (by simp)
  | some cmd0 =>
    rw [get_command_status_some hc, Option.some.injEq] at h
    subst h
    have hdisj : ∀ x ∈ cmd0.acks,
        ¬((decide (x.2.status = "success")) = true ∧
          (decide (x.2.status = "error")) = true) := by
      intro x _ hx
      rw [decide_eq_true_eq, decide_eq_true_eq] at hx
      have hse : ("success" : String) = "error" := hx.1 ▸ hx.2
      exact absurd hse (by decide)
    have hpart := countP_partition_le (fun a => decide (a.2.status = "success"))
      (fun a => decide (a.2.status = "error")) cmd0.acks hdisj
    simp only [statusOf]
    rw [← List.countP_eq_length_filter, ← List.countP_eq_length_filter]
    refine ⟨hpart.1, ?_, ?_⟩
    · constructor
      · intro hlt
        rcases hpart.2.1 hlt with ⟨x, hx, hpx, hqx⟩
        rw [decide_eq_false_iff_not] at hpx hqx
        exact ⟨cmd0, rfl, x, hx, hpx, hqx⟩
      · rintro ⟨cmd1, hc1, x, hx, hs1, hs2⟩
        injection hc1 with e
        subst e
        exact hpart.2.2 ⟨x, hx, decide_eq_false hs1, decide_eq_false hs2⟩
    · intro payload client status t cmd hparse hc2 hfresh hns hne
      injection hc2 with e
      subst e
      rw [handle_ack_known hparse hc]
      refine ⟨statusOf (with_ack client status t cmd0) now,
        get_command_status_some (alookup_upsert_self ..) now, ?_, ?_, ?_⟩
      · simp only [statusOf, with_ack]
        exact length_upsert_fresh hfresh _
      · simp only [statusOf, with_ack]
        rw [← List.countP_eq_length_filter, countP_upsert_fresh hfresh]
        simp [hns]
      · simp only [statusOf, with_ack]
        rw [← List.countP_eq_length_filter, countP_upsert_fresh hfresh]
        simp [hne]

/-! ## State-shape lemmas for dispatch and the operation step -/

theorem send_video_command_state (idx : Int) (delay now : ℚ) (cid : String)
    (o1 o2 o3 : Nat → Bool) (s : BrainState) :
    (send_video_command idx delay now cid o1 o2 o3 s).1 =
      if 0 ≤ idx ∧ idx < (s.video_files.length : Int) then
        { s with pending_commands :=
            upsert cid (new_command idx delay now s) s.pending_commands }
      else s := by
  rw [send_video_command]
  split
  · dsimp only
    split <;> rfl
  · rfl

theorem api_play_state (vi : Option Int) (now : ℚ) (cid : String)
    (o1 o2 o3 : Nat → Bool) (s : BrainState) :
    (api_play vi now cid o1 o2 o3 s).2.1 = s ∨
    (api_play vi now cid o1 o2 o3 s).2.1 =
      { s with pending_commands :=
          upsert cid (new_command (vi.getD 0) 4 now s) s.pending_commands } := by
  cases vi with
  | none => exact Or.inl rfl
  | some idx =>
    rw [api_play]
    by_cases hv : 0 ≤ idx ∧ idx < (s.video_files.length : Int)
    · rw [if_pos hv]
      by_cases he : s.clients_last_seen.isEmpty
      · rw [if_pos he]
        exact Or.inl rfl
      · rw [if_neg he]
        right
        have hstate := send_video_command_state idx 4 now cid o1 o2 o3 s
        rw [if_pos hv] at hstate
        rcases hsend : send_video_command idx 4 now cid o1 o2 o3 s with ⟨s', r, pubs⟩
        rw [hsend] at hstate
        cases r <;> exact hstate
    · rw [if_neg hv]
      exact Or.inl rfl

/-- Every coordinator operation changes the command table in one of four
ways: not at all, a dispatch upsert at the dispatched id, an ack upsert that
preserves `expected_clients`, or a reaper filter. -/
theorem applyOp_pending_shape (s : BrainState) (op : BrainOp) :
    (applyOp s op).pending_commands = s.pending_commands ∨
    (∃ cid cmd, dispatchId op = some cid ∧
      (applyOp s op).pending_commands = upsert cid cmd s.pending_commands) ∨
    (∃ cid cmd cmd', alookup cid s.pending_commands = some cmd ∧
      cmd'.expected_clients = cmd.expected_clients ∧
      (applyOp s op).pending_commands = upsert cid cmd' s.pending_commands) ∨
    (∃ p, (applyOp s op).pending_commands = s.pending_commands.filter p) := by
  cases op with
  | heartbeat c n => exact Or.inl rfl
  | ack payload n =>
    cases hp : parse_ack payload with
    | none =>
      left
      rw [applyOp, handle_ack_unparsable hp]
    | some triple =>
      obtain ⟨client, cid, st⟩ := triple
      cases hc : alookup cid s.pending_commands with
      | none =>
        left
        rw [applyOp, handle_ack_unknown hp hc]
      | some cmd =>
        right; right; left
        refine ⟨cid, cmd, with_ack client st n cmd, hc, rfl, ?_⟩
        rw [applyOp, handle_ack_known hp hc]
  | dispatch vi n cid o1 o2 o3 =>
    rcases api_play_state vi n cid o1 o2 o3 s with h | h
    · left
      rw [applyOp, h]
    · right; left
      exact ⟨cid, new_command (vi.getD 0) 4 n s, rfl, by rw [applyOp, h]⟩
  | sweepClients n => exact Or.inl rfl
  | sweepCommands n =>
    right; right; right
    exact ⟨_, rfl⟩

theorem applyOp_keysNodup (s : BrainState) (op : BrainOp)
    (hn : keysNodup s.pending_commands) : keysNodup (applyOp s op).pending_commands := by
  rcases applyOp_pending_shape s op with h | ⟨cid, cmd, _, h⟩ | ⟨cid, cmd, cmd', _, _, h⟩ |
    ⟨p, h⟩ <;> rw [h]
  · exact hn
  · exact keysNodup_upsert cid cmd hn
  · exact keysNodup_upsert cid cmd' hn
  · exact keysNodup_filter p hn

/-- One coordinator operation that does not dispatch onto id `k` can only
preserve, leave untouched, or delete the record at `k`; when the record
survives, its `expected_clients` is unchanged. -/
theorem expected_stable_step (s : BrainState) (op : BrainOp) (k : String) (c' : Command)
    (hn : keysNodup s.pending_commands) (hid : dispatchId op ≠ some k)
    (h' : alookup k (applyOp s op).pending_commands = some c') :
    ∃ c, alookup k s.pending_commands = some c ∧ c.expected_clients = c'.expected_clients := by
  rcases applyOp_pending_shape s op with h | ⟨cid, cmd, hd, h⟩ |
    ⟨cid, cmd, cmd', hcl, he, h⟩ | ⟨p, h⟩
  · rw [h] at h'
    exact ⟨c', h', rfl⟩
  · rw [h] at h'
    have hne : cid ≠ k := fun e => hid (e ▸ hd)
    rw [alookup_upsert_ne hne] at h'
    exact ⟨c', h', rfl⟩
  · rw [h] at h'
    by_cases he2 : cid = k
    · subst he2
      rw [alookup_upsert_self] at h'
      injection h' with e
      refine ⟨cmd, hcl, ?_⟩
      rw [← e]
      exact he.symm
    · rw [alookup_upsert_ne he2] at h'
      exact ⟨c', h', rfl⟩
  · rw [h] at h'
    exact ⟨c', alookup_filter hn h', rfl⟩

/-- Folding any sequence of non-`k`-dispatching operations: a record found
at `k` afterwards was already present with the same `expected_clients`. -/
theorem expected_stable_fold (ops : List BrainOp) (s : BrainState) (k : String)
    (c' : Command) (hn : keysNodup s.pending_commands)
    (hfresh : ∀ op ∈ ops, dispatchId op ≠ some k)
    (h' : alookup k (ops.foldl applyOp s).pending_commands = some c') :
    ∃ c, alookup k s.pending_commands = some c ∧
      c.expected_clients = c'.expected_clients := by
  induction ops generalizing s with
  | nil =>
    rw [List.foldl_nil] at h'
    exact ⟨c', h', rfl⟩
  | cons op rest ih =>
    rw [List.foldl_cons] at h'
    rcases ih (applyOp s op) (applyOp_keysNodup s op hn)
        (fun o ho => hfresh o (List.mem_cons_of_mem op ho)) h' with ⟨c₁, h₁, e₁⟩
    rcases expected_stable_step s op k c₁ hn (hfresh op (List.mem_cons_self op rest)) h₁
      with ⟨c₀, h₀, e₀⟩
    exact ⟨c₀, h₀, e₀.trans e₁⟩

/-- C2: for every dispatched command, `expected_clients` is fixed at
creation: across any sequence of coordinator events — heartbeats, ack
ingestion, further dispatches (of fresh command ids), and both reaper
sweeps — a command record that is still present has the same
`expected_clients` it was created with. -/
theorem expectedResponders_immutable (s : BrainState) (ops : List BrainOp) (k : String)
    (c c' : Command) (hn : keysNodup s.pending_commands)
    (hfresh : ∀ op ∈ ops, dispatchId op ≠ some k)
    (h : alookup k s.pending_commands = some c)
    (h' : alookup k (ops.foldl applyOp s).pending_commands = some c') :
    c'.expected_clients = c.expected_clients := by
  rcases expected_stable_fold ops s k c' hn hfresh h' with ⟨c₀, h₀, e₀⟩
  rw [h] at h₀
  injection h₀ with e
  rw [← e₀, e]

theorem filter_replicate_length {α : Type} (n : Nat) (a : α) (p : α → Bool) :
    ((List.replicate n a).filter p).length = if p a then n else 0 := by
  induction n with
  | zero => simp
  | succ n ih =>
    rw [List.replicate_succ, List.filter_cons]
    cases hp : p a <;> simp [hp, ih]

theorem send_video_command_out (idx : Int) (delay now : ℚ) (cid : String)
    (o1 o2 o3 : Nat → Bool) (s : BrainState)
    (h : 0 ≤ idx ∧ idx < (s.video_files.length : Int)) :
    ((send_video_command idx delay now cid o1 o2 o3 s).2.1 =
        if (publish_with_retry o1).1 then some cid else none) ∧
    (send_video_command idx delay now cid o1 o2 o3 s).2.2 =
      List.replicate (publish_with_retry o1).2 ⟨some (idx, now + delay, cid), false⟩
        ++ (if (publish_with_retry o1).1 then
              List.replicate (publish_with_retry o2).2 ⟨some (idx, now + delay, cid), true⟩
                ++ List.replicate (publish_with_retry o3).2 ⟨none, true⟩
            else []) := by
  constructor <;>
  · rw [send_video_command, if_pos h]
    cases hl : (publish_with_retry o1).1 <;> simp [hl]

/-- C5 counterexample: with a transport whose every publish attempt
succeeds, a successful dispatch publishes the live command message exactly
once (plus one retained copy), not at least 3 times. -/
theorem publish_not_three_times :
    (send_video_command 0 4 10 "cmd-1" alwaysOk alwaysOk alwaysOk exampleState).2.1 =
        some "cmd-1" ∧
    livePublishCount (0, 14, "cmd-1")
        (send_video_command 0 4 10 "cmd-1" alwaysOk alwaysOk alwaysOk exampleState).2.2 = 1 ∧
    ¬(3 ≤ livePublishCount (0, 14, "cmd-1")
        (send_video_command 0 4 10 "cmd-1" alwaysOk alwaysOk alwaysOk exampleState).2.2) := by
  have h : (0 : Int) ≤ 0 ∧ (0 : Int) < (exampleState.video_files.length : Int) := by
    norm_num [exampleState]
  obtain ⟨hres, hpubs⟩ :=
    send_video_command_out 0 4 10 "cmd-1" alwaysOk alwaysOk alwaysOk exampleState h
  have hply : publish_with_retry alwaysOk = (true, 1) := rfl
  rw [hply] at hres hpubs
  have hcount : livePublishCount (0, 14, "cmd-1")
      (send_video_command 0 4 10 "cmd-1" alwaysOk alwaysOk alwaysOk exampleState).2.2 = 1 := by
    rw [hpubs]
    have hmsg : ((0 : Int), (10 : ℚ) + 4, "cmd-1") = ((0 : Int), (14 : ℚ), "cmd-1") := by
      norm_num
    rw [hmsg]
    simp [livePublishCount, List.filter_append, filter_replicate_length]
  refine ⟨?_, hcount, ?_⟩
  · rw [hres]
    rfl
  · rw [hcount]
    omega

/-- C5 amended: the live publish makes between 1 and 3 attempts, stopping at
the first success (every attempt before the last made is a failure), and
dispatch returns the command id iff some attempt among the first 3 succeeds,
in which case at least one retained publish is also made. -/
theorem dispatch_publish_retry_spec (idx : Int) (delay now : ℚ) (cid : String)
    (liveO retainO clearO : Nat → Bool) (s : BrainState)
    (h : 0 ≤ idx ∧ idx < (s.video_files.length : Int)) :
    ((send_video_command idx delay now cid liveO retainO clearO s).2.1 = some cid ↔
      ∃ i, i < 3 ∧ liveO i = true) ∧
    1 ≤ livePublishCount (idx, now + delay, cid)
        (send_video_command idx delay now cid liveO retainO clearO s).2.2 ∧
    livePublishCount (idx, now + delay, cid)
        (send_video_command idx delay now cid liveO retainO clearO s).2.2 ≤ 3 ∧
    (∀ i, i + 1 < livePublishCount (idx, now + delay, cid)
        (send_video_command idx delay now cid liveO retainO clearO s).2.2 →
      liveO i = false) ∧
    ((send_video_command idx delay now cid liveO retainO clearO s).2.1 = some cid →
      1 ≤ retainedPublishCount (idx, now + delay, cid)
        (send_video_command idx delay now cid liveO retainO clearO s).2.2) := by
  obtain ⟨hres, hpubs⟩ := send_video_command_out idx delay now cid liveO retainO clearO s h
  have hlive : livePublishCount (idx, now + delay, cid)
      (send_video_command idx delay now cid liveO retainO clearO s).2.2 =
        (publish_with_retry liveO).2 := by
    rw [hpubs]
    cases hb : (publish_with_retry liveO).1 <;>
      simp [livePublishCount, List.filter_append, filter_replicate_length, hb]
  have hret : (publish_with_retry liveO).1 = true →
      retainedPublishCount (idx, now + delay, cid)
        (send_video_command idx delay now cid liveO retainO clearO s).2.2 =
          (publish_with_retry retainO).2 := by
    intro hb
    rw [hpubs]
    simp [retainedPublishCount, List.filter_append, filter_replicate_length, hb]
  refine ⟨?_, ?_, ?_, ?_, ?_⟩
  · have hiff := pwr_success_iff liveO
    rw [hres]
    cases hb : (publish_with_retry liveO).1 <;> simp [hb] at hiff ⊢ <;> exact hiff
  · rw [hlive]
    exact (pwr_count_bounds liveO).1
  · rw [hlive]
    exact (pwr_count_bounds liveO).2
  · intro i hi
    rw [hlive] at hi
    exact pwr_stops_at_first_success liveO i hi
  · intro hsome
    rw [hres] at hsome
    cases hb : (publish_with_retry liveO).1
    · rw [hb] at hsome
      exact absurd hsome (by simp)
    · rw [hret hb]
      exact (pwr_count_bounds retainO).1

/-- C6 counterexample: with one stale client (last heartbeat 11 s ago, past
the 10 s timeout) still in the membership table, zero nodes are active in
the claim's sense, yet dispatch succeeds rather than returning
no-receivers. -/
theorem stale_client_still_receiver :
    activeCount_spec 11 exampleState = 0 ∧
    (api_play (some 0) 11 "cmd-2" alwaysOk alwaysOk alwaysOk exampleState).1 =
      ApiPlayResult.ok "cmd-2" := by
  constructor
  · rw [activeCount_spec, exampleState]
    norm_num [HEARTBEAT_TIMEOUT, List.filter_cons]
  · have h : (0 : Int) ≤ 0 ∧ (0 : Int) < (exampleState.video_files.length : Int) := by
      norm_num [exampleState]
    obtain ⟨hres, _⟩ :=
      send_video_command_out 0 4 11 "cmd-2" alwaysOk alwaysOk alwaysOk exampleState h
    have hply : publish_with_retry alwaysOk = (true, 1) := rfl
    rw [hply] at hres
    rw [api_play, if_pos h, if_neg (by simp [exampleState])]
    rcases hsend : send_video_command 0 4 11 "cmd-2" alwaysOk alwaysOk alwaysOk exampleState
      with ⟨s', r, pubs⟩
    rw [hsend] at hres
    simp only [if_true] at hres
    have hr : r = some "cmd-2" := hres
    subst hr
    rfl

/-- C6 amended: a missing or out-of-range index yields `invalidIndex` with
no command record created and nothing published; `noReceivers` is returned
exactly when the raw membership table is empty — a stale entry not yet swept
still counts as a receiver. -/
theorem dispatch_error_spec (idx : Int) (now : ℚ) (cid : String)
    (o1 o2 o3 : Nat → Bool) (s : BrainState) :
    (api_play none now cid o1 o2 o3 s = (ApiPlayResult.invalidIndex, s, [])) ∧
    (¬(0 ≤ idx ∧ idx < (s.video_files.length : Int)) →
      api_play (some idx) now cid o1 o2 o3 s = (ApiPlayResult.invalidIndex, s, [])) ∧
    ((0 ≤ idx ∧ idx < (s.video_files.length : Int)) → s.clients_last_seen = [] →
      api_play (some idx) now cid o1 o2 o3 s = (ApiPlayResult.noReceivers, s, [])) ∧
    ((0 ≤ idx ∧ idx < (s.video_files.length : Int)) → s.clients_last_seen ≠ [] →
      (api_play (some idx) now cid o1 o2 o3 s).1 ≠ ApiPlayResult.noReceivers ∧
      (api_play (some idx) now cid o1 o2 o3 s).1 ≠ ApiPlayResult.invalidIndex) := by
  refine ⟨rfl, ?_, ?_, ?_⟩
  · intro hv
    rw [api_play, if_neg hv]
  · intro hv hemp
    rw [api_play, if_pos hv, if_pos (by rw [hemp]; rfl)]
  · intro hv hne
    have hemp : s.clients_last_seen.isEmpty = false := by
      cases hcl : s.clients_last_seen with
      | nil => exact absurd hcl hne
      | cons a l => rfl
    rw [api_play, if_pos hv, if_neg (by simp [hemp])]
    rcases hsend : send_video_command idx 4 now cid o1 o2 o3 s with ⟨s', r, pubs⟩
    cases r with
    | none => exact ⟨fun hco => ApiPlayResult.noConfusion hco,
        fun hco => ApiPlayResult.noConfusion hco⟩
    | some c => exact ⟨fun hco => ApiPlayResult.noConfusion hco,
        fun hco => ApiPlayResult.noConfusion hco⟩

/-- C7 counterexample: the clients count reports the stale client (1, not
the 0 active nodes of the claim's timeout-filtered count), and a dispatch at
that moment snapshots `expected_clients = 1`. -/
theorem clients_count_ignores_staleness :
    api_clients_count exampleState = 1 ∧
    activeCount_spec 11 exampleState = 0 ∧
    (alookup "cmd-3"
        (send_video_command 0 4 11 "cmd-3" alwaysOk alwaysOk alwaysOk
          exampleState).1.pending_commands).map
      Command.expected_clients = some 1 := by
  refine ⟨rfl, ?_, ?_⟩
  · rw [activeCount_spec, exampleState]
    norm_num [HEARTBEAT_TIMEOUT, List.filter_cons]
  · have h : (0 : Int) ≤ 0 ∧ (0 : Int) < (exampleState.video_files.length : Int) := by
      norm_num [exampleState]
    rw [send_video_command_state, if_pos h]
    dsimp only
    rw [alookup_upsert_self]
    rfl

/-- C7 amended: the clients count is the size of the raw membership table
(no heartbeat-age filter — staleness is enforced only by the sweeper, which
drops entries older than `HEARTBEAT_TIMEOUT`), and dispatch snapshots
`expected_clients` as exactly that table size. -/
theorem clients_count_snapshot_spec (s : BrainState) (idx : Int) (delay now : ℚ)
    (cid : String) (o1 o2 o3 : Nat → Bool)
    (h : 0 ≤ idx ∧ idx < (s.video_files.length : Int)) :
    api_clients_count s = s.clients_last_seen.length ∧
    (alookup cid (send_video_command idx delay now cid o1 o2 o3 s).1.pending_commands).map
        Command.expected_clients = some s.clients_last_seen.length ∧
    (cleanup_inactive_clients_step now s).clients_last_seen =
      s.clients_last_seen.filter (fun p => decide (now - p.2 ≤ HEARTBEAT_TIMEOUT)) := by
  refine ⟨rfl, ?_, rfl⟩
  rw [send_video_command_state, if_pos h]
  dsimp only
  rw [alookup_upsert_self]
  rfl

/-! ## Claim theorems: node-side playback controller -/

/-- C3 counterexample: when the loop engine does not honour the stop request
within the bounded 5 s wait, `play_video` proceeds past the warning and
starts the manual engine while the loop engine still reports playing — a
reachable state with both engines playing. -/
theorem both_engines_can_play :
    ((start_manual_playback true 0 (switch_to_manual_mode false 10 loopingState).2).2
        ∈ (play_video 0 12 10 "cmd-9" 1 true true true false loopingState).trace) ∧
    ((start_manual_playback true 0
        (switch_to_manual_mode false 10 loopingState).2).2).loop_playing = true ∧
    ((start_manual_playback true 0
        (switch_to_manual_mode false 10 loopingState).2).2).manual_playing = true := by
  decide

/-- C3 amended: provided every stop request is honoured within the bounded
wait, and starting from a well-formed state (the engines not both playing,
the loop player active in loop mode, the loop engine stopped in manual
mode), no state along the `play_video` sequence has both engines playing. -/
theorem engines_mutually_exclusive (index : Int) (start_time now : ℚ) (cid : String)
    (vc : Nat) (fe so sw : Bool) (s0 : ClientState)
    (_hinv : ¬(s0.loop_playing = true ∧ s0.manual_playing = true))
    (hloop : s0.manual_mode = false → s0.active_player = ActiveHandle.loopP)
    (hman : s0.manual_mode = true → s0.loop_playing = false) :
    ∀ s ∈ (play_video index start_time now cid vc fe so sw true s0).trace,
      ¬(s.loop_playing = true ∧ s.manual_playing = true) := by
  have h1 : ((switch_to_manual_mode true now s0).2).loop_playing = false := by
    cases hm : s0.manual_mode with
    | true =>
      rw [switch_to_manual_mode, if_pos hm]
      exact hman hm
    | false =>
      rw [switch_to_manual_mode, if_neg (by rw [hm]; exact Bool.false_ne_true)]
      simp [manual_transition_steps, hloop hm, stop_and_wait]
  have h2 : ∀ t : ClientState, (switch_to_loop_mode true t).loop_playing = t.loop_playing := by
    intro t
    rw [switch_to_loop_mode]
    split
    · rfl
    · split <;> rfl
  intro s hs
  suffices hsl : s.loop_playing = false by
    intro hcontra
    exact Bool.false_ne_true (hsl.symm.trans hcontra.1)
  simp only [play_video] at hs
  split at hs
  · simp only [List.mem_cons, List.not_mem_nil, or_false] at hs
    rcases hs with rfl | rfl
    · exact h1
    · rw [h2]
      exact h1
  · split at hs
    · simp only [List.mem_cons, List.not_mem_nil, or_false] at hs
      rcases hs with rfl | rfl
      · exact h1
      · rw [h2]
        exact h1
    · split at hs
      · simp only [List.mem_cons, List.not_mem_nil, or_false] at hs
        rcases hs with rfl | rfl | rfl
        · exact h1
        · exact h1
        · rw [h2]
          exact h1
      · split at hs
        · simp only [List.mem_cons, List.not_mem_nil, or_false] at hs
          rcases hs with rfl | rfl | rfl | rfl | rfl
          · exact h1
          · exact h1
          · exact h1
          · exact h1
          · rw [h2]
            exact h1
        · simp only [List.mem_cons, List.not_mem_nil, or_false] at hs
          rcases hs with rfl | rfl | rfl | rfl
          · exact h1
          · exact h1
          · exact h1
          · rw [h2]
            exact h1

/-- C4 counterexample: the node does not subtract any clock offset: for a
command scheduled at `now + offset + 2` with `offset = 100`, the computed
wait is 102 seconds, not the claim's `scheduledStartAt - offset - now = 2`. -/
theorem wait_ignores_offset :
    wait_seconds ((10 : ℚ) + 100 + 2) 10 = 102 ∧
    wait_claim ((10 : ℚ) + 100 + 2) 100 10 true = 2 ∧
    wait_seconds ((10 : ℚ) + 100 + 2) 10 ≠ wait_claim ((10 : ℚ) + 100 + 2) 100 10 true ∧
    (play_video 0 ((10 : ℚ) + 100 + 2) 10 "cmd-4" 1 true true true true
        loopingState).waited = some 102 := by
  refine ⟨by norm_num [wait_seconds], by norm_num [wait_claim],
    by norm_num [wait_seconds, wait_claim], ?_⟩
  have hw : (play_video 0 ((10 : ℚ) + 100 + 2) 10 "cmd-4" 1 true true true true
      loopingState).waited = some (wait_seconds ((10 : ℚ) + 100 + 2) 10) := by
    norm_num [play_video, start_manual_playback]
  rw [hw, wait_seconds]
  norm_num

/-- C4 amended: the node always computes the synchronization wait as
`scheduledStartAt - now`, with no clock-offset term (there is no clock sync
in the client); in particular the wait is exactly 2 seconds only when
`scheduledStartAt = now + 2`. -/
theorem wait_is_start_minus_now (index : Int) (start_time now : ℚ) (cid : String)
    (vc : Nat) (so : Bool) (s0 : ClientState)
    (hidx : 0 ≤ index ∧ index < (vc : Int)) :
    wait_seconds start_time now = start_time - now ∧
    (start_time = now + 2 → wait_seconds start_time now = 2) ∧
    (play_video index start_time now cid vc true true true so s0).waited =
      some (start_time - now) := by
  obtain ⟨h1, h2⟩ := hidx
  refine ⟨rfl, ?_, ?_⟩
  · intro h
    rw [wait_seconds, h]
    ring
  · simp [play_video, h1, h2, start_manual_playback, wait_seconds]

/-- C9 counterexample: a play command arriving while already in manual mode
does not perform the Looping-to-Manual transition sequence again —
`switch_to_manual_mode` returns success with the state unchanged (in
particular the transition time keeps its old value, where re-running the
sequence would set it to `now`), and even the full sequence never stops the
manual engine. -/
theorem second_command_skips_transition :
    switch_to_manual_mode true 100 manualState = (true, manualState) ∧
    manual_transition_steps true 100 manualState ≠ manualState ∧
    (manual_transition_steps true 100 manualState).manual_playing = true := by
  decide

/-- C9 amended: a play command received in manual mode is accepted:
`switch_to_manual_mode` short-circuits (returning success with the state
unchanged), and `play_video` then loads the new index on the same manual
engine — replacing the prior playback, latest command wins — and acks only
its own command id. -/
theorem latest_command_wins (index : Int) (start_time now : ℚ) (cid : String)
    (vc : Nat) (so : Bool) (s0 : ClientState)
    (hmode : s0.manual_mode = true)
    (hidx : 0 ≤ index ∧ index < (vc : Int)) :
    switch_to_manual_mode so now s0 = (true, s0) ∧
    (play_video index start_time now cid vc true true true so s0).acks =
      [(cid, "success")] ∧
    ∃ s ∈ (play_video index start_time now cid vc true true true so s0).trace,
      s.manual_media = some index ∧ s.manual_playing = true := by
  have hsw : switch_to_manual_mode so now s0 = (true, s0) := by
    rw [switch_to_manual_mode, if_pos hmode]
  obtain ⟨h1, h2⟩ := hidx
  refine ⟨hsw, ?_, ?_⟩
  · simp [play_video, hsw, h1, h2, start_manual_playback]
  · refine ⟨(start_manual_playback true index s0).2, ?_, rfl, rfl⟩
    simp [play_video, hsw, h1, h2, start_manual_playback]

/-! ## Witnesses -/

theorem get_command_status_spec_witness :
    api_command_status "zzz" 0 witnessState = StatusResult.notFound :=
  (get_command_status_spec witnessState "zzz" 0).1 rfl

theorem expectedResponders_immutable_witness :
    witnessFinalCmd.expected_clients = witnessCmd.expected_clients :=
  expectedResponders_immutable witnessState witnessOps "c1" witnessCmd witnessFinalCmd
    (by simp [witnessState, witnessCmd, keysNodup])
    (by
      intro op hop
      simp [witnessOps] at hop
      rcases hop with rfl | rfl | rfl <;> decide)
    rfl (by decide)

theorem engines_mutually_exclusive_witness :
    ¬(((start_manual_playback true 0
          (switch_to_manual_mode true 10 loopingState).2).2).loop_playing = true ∧
      ((start_manual_playback true 0
          (switch_to_manual_mode true 10 loopingState).2).2).manual_playing = true) :=
  engines_mutually_exclusive 0 12 10 "w3" 1 true true true loopingState
    (by decide) (by decide) (by decide)
    ((start_manual_playback true 0 (switch_to_manual_mode true 10 loopingState).2).2)
    (by decide)

theorem wait_is_start_minus_now_witness :
    (play_video 0 12 10 "w4" 1 true true true true loopingState).waited =
      some (12 - 10) :=
  (wait_is_start_minus_now 0 12 10 "w4" 1 true loopingState (by decide)).2.2

theorem dispatch_publish_retry_spec_witness :
    1 ≤ livePublishCount (0, 10 + 4, "w5")
      (send_video_command 0 4 10 "w5" alwaysOk alwaysOk alwaysOk exampleState).2.2 :=
  (dispatch_publish_retry_spec 0 4 10 "w5" alwaysOk alwaysOk alwaysOk exampleState
    (by decide)).2.1

theorem dispatch_error_spec_witness :
    api_play (some 0) 1 "w6" alwaysOk alwaysOk alwaysOk emptyClientsState =
      (ApiPlayResult.noReceivers, emptyClientsState, []) :=
  (dispatch_error_spec 0 1 "w6" alwaysOk alwaysOk alwaysOk emptyClientsState).2.2.1
    (by decide) rfl

theorem clients_count_snapshot_spec_witness :
    api_clients_count exampleState = exampleState.clients_last_seen.length ∧
    (alookup "w7" (send_video_command 0 4 2 "w7" alwaysOk alwaysOk alwaysOk
        exampleState).1.pending_commands).map Command.expected_clients =
      some exampleState.clients_last_seen.length ∧
    (cleanup_inactive_clients_step 2 exampleState).clients_last_seen =
      exampleState.clients_last_seen.filter
        (fun p => decide (2 - p.2 ≤ HEARTBEAT_TIMEOUT)) :=
  clients_count_snapshot_spec exampleState 0 4 2 "w7" alwaysOk alwaysOk alwaysOk
    (by decide)

theorem ack_counts_partition_witness :
    (statusOf weirdCmd 2).success_count + (statusOf weirdCmd 2).error_count ≤
      (statusOf weirdCmd 2).total_responses :=
  (ack_counts_partition weirdState "c9" 2 (statusOf weirdCmd 2) rfl).1

theorem latest_command_wins_witness :
    switch_to_manual_mode true 10 manualState = (true, manualState) ∧
    (play_video 0 12 10 "w9" 1 true true true true manualState).acks =
      [("w9", "success")] :=
  ⟨(latest_command_wins 0 12 10 "w9" 1 true manualState rfl (by decide)).1,
   (latest_command_wins 0 12 10 "w9" 1 true manualState rfl (by decide)).2.1⟩

end StepmomTV
